import Mathlib

/-!
# psycopg: connection internals and the boolean adapter

A shallow embedding of `psycopg/connection_int.c` and of the rendering part of
`psycopg/adapter_pboolean.c`.

* C strings are `String`s, one character per byte, without the terminating NUL.
* A nullable pointer is an `Option`; a `PGconn *` or a `PyObject *` is an address (`Nat`).
* The connection object, the heap cells of the cursors, the pending Python
  exception and the sequence of effects performed so far form a `World`.
* libpq and the functions of `pqpath.c` are not part of the translated files: they
  are the fields of `Extern`, each of which may answer according to everything
  that happened before (the trace).
-/

namespace Psycopg

/-! ## libpq types -/

/-- Result status of a statement, `ExecStatusType` of libpq. -/
inductive ExecStatusType
  | PGRES_EMPTY_QUERY
  | PGRES_COMMAND_OK
  | PGRES_TUPLES_OK
  | PGRES_COPY_OUT
  | PGRES_COPY_IN
  | PGRES_BAD_RESPONSE
  | PGRES_NONFATAL_ERROR
  | PGRES_FATAL_ERROR
  deriving DecidableEq, Repr

/-- Status of a link, `ConnStatusType` of libpq. -/
inductive ConnStatusType
  | CONNECTION_OK
  | CONNECTION_BAD
  | CONNECTION_STARTED
  | CONNECTION_MADE
  | CONNECTION_AWAITING_RESPONSE
  | CONNECTION_AUTH_OK
  | CONNECTION_SETENV
  deriving DecidableEq, Repr

/-- What the code reads from a `PGresult *`: `PQresultStatus(pgres)` and
`PQgetvalue(pgres, 0, 0)`. -/
structure PGresult where
  status : ExecStatusType
  value00 : String
  deriving DecidableEq, Repr

/-- The global exception objects declared in `psycopg.h`. -/
inductive PyExc
  | Error
  | Warning
  | InterfaceError
  | DatabaseError
  | InternalError
  | OperationalError
  | ProgrammingError
  | IntegrityError
  | DataError
  | NotSupportedError
  deriving DecidableEq, Repr

/-! ## C library -/

/-- C `snprintf(buf, size, fmt, arg)` for a format `pre%spost` with one `%s`:
the buffer receives at most `size - 1` bytes of the expansion, then the NUL. -/
def snprintf (size : Nat) (pre arg post : String) : String :=
  String.mk ((pre ++ arg ++ post).data.take (size - 1))

/-- C `strncmp(a, b, n)` on NUL-terminated strings given by their bytes: the
difference of the first two bytes that differ among the first `n`, the end of
a string counting as the byte 0; 0 when there is none. -/
def strncmp : List Char → List Char → Nat → Int
  | _, _, 0 => 0
  | [], [], _ + 1 => 0
  | [], b :: _, _ + 1 => - (b.toNat : Int)
  | a :: _, [], _ + 1 => (a.toNat : Int)
  | a :: as, b :: bs, n + 1 =>
    if a = b then strncmp as bs n else (a.toNat : Int) - (b.toNat : Int)

/-! ## Objects -/

/-- A cursor object as far as the connection touches it: its reference count
and its back-reference to the connection (`none` is `NULL`, orphaned). -/
structure cursorObject where
  ob_refcnt : Nat
  conn : Option Nat
  deriving DecidableEq, Repr

/-- The fields of `connectionObject` that `connection_int.c` reads or writes.
`cursors` and `notice_list` are the Python lists, given by their items. -/
structure connectionObject where
  dsn : String
  closed : Int
  isolation_level : Int
  encoding : Option String
  protocol : Int
  pgconn : Option Nat
  cursors : List Nat
  notice_list : List String
  critical : Option String
  deriving DecidableEq, Repr

/-- One effect, in program order: the mutex operations, the calls into libpq
and `pqpath.c` (with the status they returned), the writes to the fields of the
connection, the steps of orphaning, and the exceptions set. -/
inductive Event
  | mutex_lock
  | mutex_unlock
  | PQconnectdb (dsn : String)
  | PQsetNoticeProcessor (pgconn : Nat)
  | PQexec (pgconn : Option Nat) (query : String)
  | PQsetnonblocking (pgconn : Nat) (arg : Int)
  | PQfinish (pgconn : Nat)
  | pq_abort (res : Int)
  | pq_commit (res : Int)
  | set_closed (v : Int)
  | set_isolation_level (v : Int)
  | set_encoding (v : String)
  | set_protocol (v : Int)
  | set_pgconn (v : Option Nat)
  | cursors_del (i : Nat) (t : Nat)
  | cursor_orphan (t : Nat)
  | notice_append (message : String)
  | set_critical (message : String)
  | PyErr (exc : PyExc) (message : String)
  deriving DecidableEq, Repr

/-- The functions called by `connection_int.c` that live outside the translated
files: libpq, and `pq_abort` and `pq_commit` of `pqpath.c`. Each one receives the
effects performed so far, so a link may answer two equal calls differently.
`pq_abort` and `pq_commit` work on the link; what the connection code sees of
them is the status they return. -/
structure Extern where
  PQconnectdb : List Event → String → Option Nat
  PQstatus : List Event → Nat → ConnStatusType
  PQerrorMessage : List Event → Nat → String
  PQexec : List Event → Option Nat → String → Option PGresult
  PQsetnonblocking : List Event → Nat → Int → Int
  PQprotocolVersion : List Event → Nat → Int
  pq_abort : List Event → connectionObject → Int
  pq_commit : List Event → connectionObject → Int

/-- The connection object `self`, the heap cells of cursor objects (`none`:
no live object at that address), the pending Python exception and the effects
performed so far. -/
structure World where
  self : connectionObject
  heap : Nat → Option cursorObject
  err : Option (PyExc × String)
  trace : List Event

/-- Record an effect. -/
def emit (e : Event) (w : World) : World :=
  { w with trace := w.trace ++ [e] }

/-- `PyErr_SetString(exc, msg)` and `PyErr_Format`, once the text is formatted. -/
def PyErr_SetString (exc : PyExc) (message : String) (w : World) : World :=
  emit (.PyErr exc message) { w with err := some (exc, message) }

/-- `PQfinish(pgconn)`. -/
def PQfinish (pgconn : Nat) (w : World) : World :=
  emit (.PQfinish pgconn) w

/-- The test `pgres == NULL || PQresultStatus(pgres) != expected`. -/
def pgres_failed (pgres : Option PGresult) (expected : ExecStatusType) : Bool :=
  match pgres with
  | none => true
  | some r => r.status != expected

/-! ## conn_set_client_encoding -/

/-- The statement built by `snprintf(query, 47, "SET client_encoding = '%s'", enc)`. -/
def client_encoding_query (enc : String) : String :=
  snprintf 47 "SET client_encoding = '" enc "'"

/-- `conn_set_client_encoding(self, enc)`: returns `res`. -/
def conn_set_client_encoding (X : Extern) (enc : String) (w : World) : Int × World :=
  let w := emit .mutex_lock w
  let query := client_encoding_query enc
  let res := X.pq_abort w.trace w.self
  let w := emit (.pq_abort res) w
  if res = 0 then
    let pgres := X.PQexec w.trace w.self.pgconn query
    let w := emit (.PQexec w.self.pgconn query) w
    let failed := pgres_failed pgres .PGRES_COMMAND_OK
    let w := if failed then
        PyErr_SetString .OperationalError ("can't set encoding to '" ++ enc ++ "'") w
      else w
    let res := if failed then -1 else res
    let w := emit (.set_encoding enc) { w with self := { w.self with encoding := some enc } }
    let w := emit .mutex_unlock w
    (res, w)
  else
    let w := emit .mutex_unlock w
    (res, w)

/-! ## conn_notice_callback -/

/-- Modelled from the spec: `pq_set_critical` of `pqpath.c`, which is not among the
translated files. The spec says that the message "is escalated to a recorded
critical condition associated with the connection rather than appended to the
routine notice log": the message becomes the `critical` field of the connection. -/
def pq_set_critical (message : String) (w : World) : World :=
  emit (.set_critical message) { w with self := { w.self with critical := some message } }

/-- `conn_notice_callback(self, message)`. -/
def conn_notice_callback (message : String) (w : World) : World :=
  if strncmp message.data "ERROR".data 5 = 0 then
    pq_set_critical message w
  else
    emit (.notice_append message)
      { w with self := { w.self with notice_list := w.self.notice_list ++ [message] } }

/-- The link delivering a sequence of notices, one call of the callback each. -/
def deliver_notices (messages : List String) (w : World) : World :=
  messages.foldl (fun w m => conn_notice_callback m w) w

/-! ## conn_connect -/

/-- The shared tail of the failure paths of `conn_connect` once a link exists:
`PyErr_SetString(OperationalError, msg); PQfinish(pgconn); return -1;`. -/
def conn_connect_fail (message : String) (pgconn : Nat) (w : World) : Int × World :=
  (-1, PQfinish pgconn (PyErr_SetString .OperationalError message w))

/-- `conn_connect(self)`. `HAVE_PQPROTOCOL3` is the build-time macro tested by
the `#ifdef`; `config.h` is not among the translated files. -/
def conn_connect (X : Extern) (HAVE_PQPROTOCOL3 : Bool) (w : World) : Int × World :=
  let datestyle := "SET DATESTYLE TO 'ISO'"
  let encoding := "SHOW client_encoding"
  let pgconn := X.PQconnectdb w.trace w.self.dsn
  let w := emit (.PQconnectdb w.self.dsn) w
  match pgconn with
  | none => (-1, PyErr_SetString .OperationalError "PQconnectdb() failed" w)
  | some pgconn =>
    if X.PQstatus w.trace pgconn = .CONNECTION_BAD then
      conn_connect_fail (X.PQerrorMessage w.trace pgconn) pgconn w
    else
      let w := emit (.PQsetNoticeProcessor pgconn) w
      let pgres := X.PQexec w.trace (some pgconn) datestyle
      let w := emit (.PQexec (some pgconn) datestyle) w
      if pgres_failed pgres .PGRES_COMMAND_OK then
        conn_connect_fail "can't set datestyle to ISO" pgconn w
      else
        let pgres := X.PQexec w.trace (some pgconn) encoding
        let w := emit (.PQexec (some pgconn) encoding) w
        match pgres with
        | none => conn_connect_fail "can't fetch client_encoding" pgconn w
        | some r =>
          if r.status ≠ .PGRES_TUPLES_OK then
            conn_connect_fail "can't fetch client_encoding" pgconn w
          else
            let w := emit (.set_encoding r.value00)
              { w with self := { w.self with encoding := some r.value00 } }
            let nb := X.PQsetnonblocking w.trace pgconn 1
            let w := emit (.PQsetnonblocking pgconn 1) w
            if nb ≠ 0 then
              conn_connect_fail "PQsetnonblocking() failed" pgconn w
            else
              let protocol := if HAVE_PQPROTOCOL3 then X.PQprotocolVersion w.trace pgconn else 2
              let w := emit (.set_protocol protocol)
                { w with self := { w.self with protocol := protocol } }
              let w := emit (.set_pgconn (some pgconn))
                { w with self := { w.self with pgconn := some pgconn } }
              (0, w)

/-! ## conn_close -/

/-- `Py_INCREF(t)` on the heap. -/
def Py_INCREF (t : Nat) (heap : Nat → Option cursorObject) : Nat → Option cursorObject :=
  match heap t with
  | none => heap
  | some c => Function.update heap t (some { c with ob_refcnt := c.ob_refcnt + 1 })

/-- `Py_DECREF(t)` on the heap: the object is deallocated when its count
reaches zero. -/
def Py_DECREF (t : Nat) (heap : Nat → Option cursorObject) : Nat → Option cursorObject :=
  match heap t with
  | none => heap
  | some c =>
    if c.ob_refcnt ≤ 1 then Function.update heap t none
    else Function.update heap t (some { c with ob_refcnt := c.ob_refcnt - 1 })

/-- The assignment `((cursorObject *)t)->conn = NULL` on the heap. -/
def cursor_set_conn_null (t : Nat) (heap : Nat → Option cursorObject) :
    Nat → Option cursorObject :=
  match heap t with
  | none => heap
  | some c => Function.update heap t (some { c with conn := none })

/-- The loop `for (i = len-1; i >= 0; i--)` of `conn_close`; the first argument
is `i + 1`. `PySequence_GetItem` returns a new reference to item `i`,
`PySequence_DelItem` removes item `i` from the list and drops the reference the
list held. -/
def conn_close_loop : Nat → World → World
  | 0, w => w
  | i + 1, w =>
    match w.self.cursors.get? i with
    | none => w
    | some t =>
      let w := { w with heap := Py_INCREF t w.heap }
      let w := emit (.cursors_del i t)
        { w with self := { w.self with cursors := w.self.cursors.eraseIdx i },
                 heap := Py_DECREF t w.heap }
      let w := emit (.cursor_orphan t) { w with heap := cursor_set_conn_null t w.heap }
      conn_close_loop i w

/-- `conn_close(self)`. -/
def conn_close (X : Extern) (w : World) : World :=
  let w := emit .mutex_lock w
  let w := emit (.set_closed 1) { w with self := { w.self with closed := 1 } }
  let w := if w.self.pgconn.isSome then emit (.pq_abort (X.pq_abort w.trace w.self)) w else w
  let w := emit .mutex_unlock w
  let w := emit .mutex_lock w
  let len := w.self.cursors.length
  let w := conn_close_loop len w
  let w := emit .mutex_unlock w
  match w.self.pgconn with
  | some pgconn =>
    let w := PQfinish pgconn w
    emit (.set_pgconn none) { w with self := { w.self with pgconn := none } }
  | none => w

/-! ## conn_commit, conn_rollback, conn_switch_isolation_level -/

/-- `conn_commit(self)`. -/
def conn_commit (X : Extern) (w : World) : Int × World :=
  let w := emit .mutex_lock w
  let res := X.pq_commit w.trace w.self
  let w := emit (.pq_commit res) w
  let w := emit .mutex_unlock w
  (res, w)

/-- `conn_rollback(self)`. -/
def conn_rollback (X : Extern) (w : World) : Int × World :=
  let w := emit .mutex_lock w
  let res := X.pq_abort w.trace w.self
  let w := emit (.pq_abort res) w
  let w := emit .mutex_unlock w
  (res, w)

/-- `conn_switch_isolation_level(self, level)`. -/
def conn_switch_isolation_level (X : Extern) (level : Int) (w : World) : Int × World :=
  let w := emit .mutex_lock w
  let r : Int × World :=
    if w.self.isolation_level ≠ level ∧ w.self.isolation_level > 0 then
      (X.pq_abort w.trace w.self, emit (.pq_abort (X.pq_abort w.trace w.self)) w)
    else (0, w)
  let res := r.1
  let w := r.2
  let w := emit (.set_isolation_level level)
    { w with self := { w.self with isolation_level := level } }
  let w := emit .mutex_unlock w
  (res, w)

/-! ## adapter_pboolean.c -/

/-- The `pbooleanObject`: the wrapped Python object. -/
structure pbooleanObject (PyObject : Type) where
  wrapped : PyObject

/-- `pboolean_str(self)`. `PyObject_IsTrue` is the truth test of the Python
runtime: 1 for true, 0 for false, -1 when the test itself raised. -/
def pboolean_str {PyObject : Type} (PyObject_IsTrue : PyObject → Int)
    (self : pbooleanObject PyObject) : String :=
  if PyObject_IsTrue self.wrapped ≠ 0 then "'t'" else "'f'"

/-- `pboolean_getquoted(self, args)`: `PyArg_ParseTuple(args, "")` accepts the
empty tuple only; `none` is the `NULL` return. -/
def pboolean_getquoted {PyObject : Type} (PyObject_IsTrue : PyObject → Int)
    (self : pbooleanObject PyObject) (args : List PyObject) : Option String :=
  if args.isEmpty then some (pboolean_str PyObject_IsTrue self) else none

/-! ## Reading a trace -/

/-- The number of aborts in a sequence of effects. -/
def count_aborts (tr : List Event) : Nat :=
  (tr.filter (fun e => match e with | .pq_abort _ => true | _ => false)).length

/-- The links released in a sequence of effects, in order. -/
def finished (tr : List Event) : List Nat :=
  tr.filterMap (fun e => match e with | .PQfinish p => some p | _ => none)

/-- The statements executed in a sequence of effects, in order. -/
def statements (tr : List Event) : List String :=
  tr.filterMap (fun e => match e with | .PQexec _ q => some q | _ => none)

/-! ## Words of the specification -/

/-- The message begins with the five-character sentinel `ERROR`. -/
def begins_with_ERROR (message : String) : Bool :=
  "ERROR".data.isPrefixOf message.data

/-- The steps of orphaning a list of dependent cursors: from the last item to
the first, the item is removed from the list at its index and its
back-reference is cleared. -/
def orphan_events (cursors : List Nat) : List Event :=
  cursors.enum.reverse.flatMap (fun it => [Event.cursors_del it.1 it.2, Event.cursor_orphan it.2])

/-- The heap in which the back-reference of each listed cursor object is null
and nothing else has changed. -/
def orphan_all (cursors : List Nat) (heap : Nat → Option cursorObject) :
    Nat → Option cursorObject :=
  fun a => if a ∈ cursors then (heap a).map (fun c => { c with conn := none }) else heap a

/-- The effects that the specification places under the lock of the
connection: the link operations (commit, abort, statement execution, link
release) and the writes to the closed flag, the isolation level, the cached
encoding, the link handle and the dependents collection. -/
def needs_lock : Event → Bool
  | .pq_commit _ => true
  | .pq_abort _ => true
  | .PQexec _ _ => true
  | .PQfinish _ => true
  | .set_closed _ => true
  | .set_isolation_level _ => true
  | .set_encoding _ => true
  | .set_pgconn _ => true
  | .cursors_del _ _ => true
  | _ => false

/-- Reading a sequence of effects from a state of the lock (`held`): every
acquisition finds the lock free, every release finds it held, every effect that
needs the lock occurs while it is held, and the lock is free at the end. -/
def lock_held_throughout : Bool → List Event → Bool
  | held, [] => !held
  | held, .mutex_lock :: tr => !held && lock_held_throughout true tr
  | held, .mutex_unlock :: tr => held && lock_held_throughout false tr
  | held, e :: tr => (!needs_lock e || held) && lock_held_throughout held tr

/-- The effects an operation added to the trace of the world it started from. -/
def effects_since (w : World) (w' : World) : List Event :=
  w'.trace.drop w.trace.length

/-! ## Sample links and connections -/

/-- A link on which everything succeeds: the encoding query answers `UTF8`,
the protocol version is 3. -/
def link_up : Extern where
  PQconnectdb := fun _ _ => some 1
  PQstatus := fun _ _ => .CONNECTION_OK
  PQerrorMessage := fun _ _ => ""
  PQexec := fun _ _ q =>
    if q = "SHOW client_encoding" then some ⟨.PGRES_TUPLES_OK, "UTF8"⟩
    else some ⟨.PGRES_COMMAND_OK, ""⟩
  PQsetnonblocking := fun _ _ _ => 0
  PQprotocolVersion := fun _ _ => 3
  pq_abort := fun _ _ => 0
  pq_commit := fun _ _ => 0

/-- A link that connects and aborts, and answers every statement with a fatal
error. -/
def link_refusing : Extern :=
  { link_up with PQexec := fun _ _ _ => some ⟨.PGRES_FATAL_ERROR, ""⟩ }

/-- A link on which every abort fails (`pq_abort` returns -1). -/
def link_abort_failing : Extern :=
  { link_up with pq_abort := fun _ _ => -1 }

/-- A link on which everything succeeds except the switch to non-blocking mode. -/
def link_blocking : Extern :=
  { link_up with PQsetnonblocking := fun _ _ _ => -1 }

/-- A connection object before `conn_connect`: no link, no encoding. -/
def conn_fresh : World where
  self :=
    { dsn := "dbname=test", closed := 0, isolation_level := 1, encoding := none,
      protocol := 0, pgconn := none, cursors := [], notice_list := [], critical := none }
  heap := fun _ => none
  err := none
  trace := []

/-- A connected object with encoding `UTF8` and two dependent cursors, at the
addresses 10 and 11. -/
def conn_live : World where
  self :=
    { dsn := "dbname=test", closed := 0, isolation_level := 1, encoding := some "UTF8",
      protocol := 3, pgconn := some 1, cursors := [10, 11], notice_list := [],
      critical := none }
  heap := fun a => if a = 10 ∨ a = 11 then some { ob_refcnt := 1, conn := some 0 } else none
  err := none
  trace := []

/-! ## Lemmas on traces -/

@[simp] theorem emit_trace (e : Event) (w : World) : (emit e w).trace = w.trace ++ [e] := rfl

@[simp] theorem emit_self (e : Event) (w : World) : (emit e w).self = w.self := rfl

@[simp] theorem emit_heap (e : Event) (w : World) : (emit e w).heap = w.heap := rfl

@[simp] theorem emit_err (e : Event) (w : World) : (emit e w).err = w.err := rfl

theorem statements_append (a b : List Event) :
    statements (a ++ b) = statements a ++ statements b := by
  simp [statements, List.filterMap_append]

theorem finished_append (a b : List Event) :
    finished (a ++ b) = finished a ++ finished b := by
  simp [finished, List.filterMap_append]

theorem count_aborts_append (a b : List Event) :
    count_aborts (a ++ b) = count_aborts a + count_aborts b := by
  simp [count_aborts, List.filter_append]

/-! ## conn_set_client_encoding: the statement text -/

/-- The expansion of the format fits the 46 bytes that `snprintf` may store
exactly when the name has at most 22 bytes: then the statement is complete. -/
theorem client_encoding_query_complete (enc : String) (h : enc.length ≤ 22) :
    client_encoding_query enc = "SET client_encoding = '" ++ enc ++ "'" := by
  have h' : enc.data.length ≤ 22 := h
  have hlen : ("SET client_encoding = '" ++ enc ++ "'").data.length ≤ 47 - 1 := by
    simp only [String.data_append, List.length_append, List.length_cons, List.length_nil]
    omega
  unfold client_encoding_query snprintf
  rw [List.take_of_length_le hlen]

/-- A name of 23 bytes or more loses its tail and the closing quote: what is
stored is the prefix followed by the first 23 bytes of the name. -/
theorem client_encoding_query_cut (enc : String) (h : 23 ≤ enc.length) :
    client_encoding_query enc =
      "SET client_encoding = '" ++ String.mk (enc.data.take 23) := by
  have h' : 23 ≤ enc.data.length := h
  have h1 : ("SET client_encoding = '" : String).data.length = 23 := by decide
  unfold client_encoding_query snprintf
  apply String.ext
  show List.take (47 - 1) (("SET client_encoding = '" : String).data ++ enc.data ++ ("'" : String).data)
    = ("SET client_encoding = '" : String).data ++ List.take 23 enc.data
  rw [List.append_assoc, List.take_append_eq_append_take, List.take_of_length_le (by omega), h1,
    List.take_append_eq_append_take]
  have h3 : 47 - 1 - 23 - enc.data.length = 0 := by omega
  rw [h3, List.take_zero, List.append_nil]

/-- The effects of `conn_set_client_encoding` when the abort succeeds. -/
theorem conn_set_client_encoding_trace (X : Extern) (enc : String) (w : World)
    (habort : X.pq_abort (w.trace ++ [.mutex_lock]) w.self = 0) :
    (conn_set_client_encoding X enc w).2.trace =
      w.trace ++ [.mutex_lock, .pq_abort 0, .PQexec w.self.pgconn (client_encoding_query enc)] ++
        (if pgres_failed (X.PQexec (w.trace ++ [.mutex_lock, .pq_abort 0]) w.self.pgconn
            (client_encoding_query enc)) .PGRES_COMMAND_OK
          then [.PyErr .OperationalError ("can't set encoding to '" ++ enc ++ "'")] else []) ++
        [.set_encoding enc, .mutex_unlock] := by
  unfold conn_set_client_encoding
  simp only [emit_trace, emit_self, habort, if_true, List.append_assoc, List.singleton_append]
  split <;> simp only [emit_trace, PyErr_SetString, List.append_assoc, List.singleton_append,
    List.nil_append, List.cons_append]

/-- For a name of at most 22 bytes the statement sent to the link is the
complete `SET client_encoding = '<name>'`. -/
theorem conn_set_client_encoding_statement_complete (X : Extern) (enc : String) (w : World)
    (hlen : enc.length ≤ 22)
    (habort : X.pq_abort (w.trace ++ [.mutex_lock]) w.self = 0) :
    statements (conn_set_client_encoding X enc w).2.trace =
      statements w.trace ++ ["SET client_encoding = '" ++ enc ++ "'"] := by
  rw [conn_set_client_encoding_trace X enc w habort, client_encoding_query_complete enc hlen]
  simp only [statements_append]
  split <;> simp [statements]

/-- Claim C1 fails on the code: for a name of 23 bytes or more (so for the names
of 23 and 24 bytes the claim covers), the statement that `conn_set_client_encoding`
sends after a successful abort is the prefix `SET client_encoding = '` followed by
the first 23 bytes of the name only, which is not the complete statement: the
closing quote is lost, and for 24 bytes the last byte of the name too. -/
theorem conn_set_client_encoding_statement_cut (X : Extern) (enc : String) (w : World)
    (hlen : 23 ≤ enc.length)
    (habort : X.pq_abort (w.trace ++ [.mutex_lock]) w.self = 0) :
    statements (conn_set_client_encoding X enc w).2.trace =
        statements w.trace ++ ["SET client_encoding = '" ++ String.mk (enc.data.take 23)] ∧
      "SET client_encoding = '" ++ String.mk (enc.data.take 23) ≠
        "SET client_encoding = '" ++ enc ++ "'" := by
  constructor
  · rw [conn_set_client_encoding_trace X enc w habort, client_encoding_query_cut enc hlen]
    simp only [statements_append]
    split <;> simp [statements]
  · intro h
    have h2 := congrArg String.length h
    rw [String.length_append, String.length_append, String.length_append] at h2
    have h3 : (String.mk (enc.data.take 23)).length = 23 := by
      show (List.take 23 enc.data).length = 23
      rw [List.length_take]
      exact Nat.min_eq_left hlen
    have h4 : ("SET client_encoding = '" : String).length = 23 := by decide
    have h5 : ("'" : String).length = 1 := by decide
    omega

/-- At the 24-byte name `ABCDEFGHIJKLMNOPQRSTUVWX` the statement sent is
`SET client_encoding = 'ABCDEFGHIJKLMNOPQRSTUVW`. -/
theorem conn_set_client_encoding_statement_cut_witness :
    "ABCDEFGHIJKLMNOPQRSTUVWX".length = 24 ∧
      statements (conn_set_client_encoding link_up "ABCDEFGHIJKLMNOPQRSTUVWX" conn_live).2.trace =
        ["SET client_encoding = 'ABCDEFGHIJKLMNOPQRSTUVW"] :=
  ⟨by decide,
    (conn_set_client_encoding_statement_cut link_up "ABCDEFGHIJKLMNOPQRSTUVWX" conn_live
      (by decide) rfl).1⟩

/-! ## conn_set_client_encoding: the cached encoding -/

/-- When the abort and the statement succeed, the operation returns 0, sets no
exception and caches the requested name. -/
theorem conn_set_client_encoding_success (X : Extern) (enc : String) (w : World)
    (habort : X.pq_abort (w.trace ++ [.mutex_lock]) w.self = 0)
    (hok : pgres_failed (X.PQexec (w.trace ++ [.mutex_lock, .pq_abort 0]) w.self.pgconn
      (client_encoding_query enc)) .PGRES_COMMAND_OK = false) :
    (conn_set_client_encoding X enc w).1 = 0 ∧
      (conn_set_client_encoding X enc w).2.err = w.err ∧
      (conn_set_client_encoding X enc w).2.self.encoding = some enc := by
  unfold conn_set_client_encoding
  simp only [emit_trace, emit_self, emit_err, habort, if_true, List.append_assoc,
    List.singleton_append, hok, PyErr_SetString]
  simp

/-- Claim C2 fails on the code in its failure half: when the abort succeeded
and the statement fails (null result or a status other than command-ok),
`conn_set_client_encoding` returns -1 with an `OperationalError` naming the
requested encoding, and the cached encoding is nevertheless overwritten with the
requested name instead of keeping its previous value. -/
theorem conn_set_client_encoding_failure_caches (X : Extern) (enc : String) (w : World)
    (habort : X.pq_abort (w.trace ++ [.mutex_lock]) w.self = 0)
    (hfail : pgres_failed (X.PQexec (w.trace ++ [.mutex_lock, .pq_abort 0]) w.self.pgconn
      (client_encoding_query enc)) .PGRES_COMMAND_OK = true) :
    (conn_set_client_encoding X enc w).1 = -1 ∧
      (conn_set_client_encoding X enc w).2.err =
        some (.OperationalError, "can't set encoding to '" ++ enc ++ "'") ∧
      (conn_set_client_encoding X enc w).2.self.encoding = some enc := by
  unfold conn_set_client_encoding
  simp only [emit_trace, emit_self, emit_err, habort, if_true, List.append_assoc,
    List.singleton_append, hfail, PyErr_SetString]
  simp

/-- On a connection caching `UTF8`, a refused switch to `LATIN1` returns -1 and
leaves `LATIN1` cached. -/
theorem conn_set_client_encoding_failure_caches_witness :
    conn_live.self.encoding = some "UTF8" ∧
      (conn_set_client_encoding link_refusing "LATIN1" conn_live).1 = -1 ∧
      (conn_set_client_encoding link_refusing "LATIN1" conn_live).2.err =
        some (.OperationalError, "can't set encoding to 'LATIN1'") ∧
      (conn_set_client_encoding link_refusing "LATIN1" conn_live).2.self.encoding =
        some "LATIN1" :=
  ⟨rfl, conn_set_client_encoding_failure_caches link_refusing "LATIN1" conn_live rfl rfl⟩

/-! ## conn_connect -/

/-- Every failure of `conn_connect` returns -1 with an `OperationalError`,
releases the link exactly once when one was obtained, and leaves the link handle
and the protocol version of the object as they were; the cached encoding is as
it was too, unless the failure is that of the switch to non-blocking mode. -/
theorem conn_connect_failure (X : Extern) (f : Bool) (w : World)
    (h : (conn_connect X f w).1 ≠ 0) :
    (conn_connect X f w).1 = -1 ∧
      (∃ msg, (conn_connect X f w).2.err = some (.OperationalError, msg)) ∧
      (conn_connect X f w).2.self.pgconn = w.self.pgconn ∧
      (conn_connect X f w).2.self.protocol = w.self.protocol ∧
      finished (conn_connect X f w).2.trace =
        finished w.trace ++ (X.PQconnectdb w.trace w.self.dsn).toList ∧
      ((conn_connect X f w).2.err = some (.OperationalError, "PQsetnonblocking() failed") ∨
        (conn_connect X f w).2.self.encoding = w.self.encoding) := by
  revert h
  unfold conn_connect
  simp only [emit_trace, emit_self, emit_err, conn_connect_fail, PQfinish, PyErr_SetString,
    List.append_assoc, List.singleton_append, List.cons_append, List.nil_append]
  cases hc : X.PQconnectdb w.trace w.self.dsn with
  | none => simp [finished_append, finished]
  | some p =>
    simp only []
    split
    · simp [finished_append, finished]
    · split
      · simp [finished_append, finished]
      · split
        · simp [finished_append, finished]
        · split
          · simp [finished_append, finished]
          · split
            · simp [finished_append, finished]
            · simp

/-- Claim C3 fails on the code for one failure cause: when the link connects,
both setup statements succeed with the encoding query answering `UTF8`, and the
switch to non-blocking mode fails, `conn_connect` returns -1 with an
`OperationalError` and releases the link once, with link handle and protocol
version untouched, but the cached encoding of the object has changed from unset
to `UTF8`: partial state is retained. -/
theorem conn_connect_nonblocking_failure_keeps_encoding :
    (conn_connect link_blocking true conn_fresh).1 = -1 ∧
      (conn_connect link_blocking true conn_fresh).2.err =
        some (.OperationalError, "PQsetnonblocking() failed") ∧
      finished (conn_connect link_blocking true conn_fresh).2.trace = [1] ∧
      (conn_connect link_blocking true conn_fresh).2.self.pgconn = conn_fresh.self.pgconn ∧
      (conn_connect link_blocking true conn_fresh).2.self.protocol = conn_fresh.self.protocol ∧
      conn_fresh.self.encoding = none ∧
      (conn_connect link_blocking true conn_fresh).2.self.encoding = some "UTF8" := by
  decide

/-- Claim C4, amended: on a link where establishment, both setup statements and
the switch to non-blocking mode succeed, `conn_connect` returns 0 having issued
exactly `SET DATESTYLE TO 'ISO'` and then `SHOW client_encoding`; the connection
holds that link and caches the value returned by the encoding query; the
protocol version recorded is the one the link reports when built with
`HAVE_PQPROTOCOL3`, and 2 otherwise. No exception is set and no link released. -/
theorem conn_connect_success (X : Extern) (f : Bool) (w : World) (pgconn : Nat) (r : PGresult)
    (hconn : X.PQconnectdb w.trace w.self.dsn = some pgconn)
    (hstatus : X.PQstatus (w.trace ++ [.PQconnectdb w.self.dsn]) pgconn ≠ .CONNECTION_BAD)
    (hdate : pgres_failed (X.PQexec
        (w.trace ++ [.PQconnectdb w.self.dsn, .PQsetNoticeProcessor pgconn])
        (some pgconn) "SET DATESTYLE TO 'ISO'") .PGRES_COMMAND_OK = false)
    (henc : X.PQexec
        (w.trace ++ [.PQconnectdb w.self.dsn, .PQsetNoticeProcessor pgconn,
          .PQexec (some pgconn) "SET DATESTYLE TO 'ISO'"])
        (some pgconn) "SHOW client_encoding" = some r)
    (htuples : r.status = .PGRES_TUPLES_OK)
    (hnb : X.PQsetnonblocking
        (w.trace ++ [.PQconnectdb w.self.dsn, .PQsetNoticeProcessor pgconn,
          .PQexec (some pgconn) "SET DATESTYLE TO 'ISO'",
          .PQexec (some pgconn) "SHOW client_encoding", .set_encoding r.value00])
        pgconn 1 = 0) :
    (conn_connect X f w).1 = 0 ∧
      statements (conn_connect X f w).2.trace =
        statements w.trace ++ ["SET DATESTYLE TO 'ISO'", "SHOW client_encoding"] ∧
      (conn_connect X f w).2.self.pgconn = some pgconn ∧
      (conn_connect X f w).2.self.encoding = some r.value00 ∧
      (conn_connect X f w).2.self.protocol =
        (if f then X.PQprotocolVersion
          (w.trace ++ [.PQconnectdb w.self.dsn, .PQsetNoticeProcessor pgconn,
            .PQexec (some pgconn) "SET DATESTYLE TO 'ISO'",
            .PQexec (some pgconn) "SHOW client_encoding", .set_encoding r.value00,
            .PQsetnonblocking pgconn 1]) pgconn
         else 2) ∧
      (conn_connect X f w).2.err = w.err ∧
      finished (conn_connect X f w).2.trace = finished w.trace := by
  unfold conn_connect
  simp only [emit_trace, emit_self, emit_err, conn_connect_fail, PQfinish, PyErr_SetString,
    List.append_assoc, List.singleton_append, List.cons_append, List.nil_append, hconn, hstatus,
    hdate, henc, htuples, hnb, if_false, ne_eq, not_true_eq_false, statements_append,
    finished_append]
  simp [statements, finished]

/-- On the sample link: success, both statements, link 1, `UTF8`, protocol 3. -/
theorem conn_connect_success_witness :
    (conn_connect link_up true conn_fresh).1 = 0 ∧
      statements (conn_connect link_up true conn_fresh).2.trace =
        ["SET DATESTYLE TO 'ISO'", "SHOW client_encoding"] ∧
      (conn_connect link_up true conn_fresh).2.self.pgconn = some 1 ∧
      (conn_connect link_up true conn_fresh).2.self.encoding = some "UTF8" ∧
      (conn_connect link_up true conn_fresh).2.self.protocol = 3 ∧
      (conn_connect link_up true conn_fresh).2.err = none ∧
      finished (conn_connect link_up true conn_fresh).2.trace = [] :=
  conn_connect_success link_up true conn_fresh 1 ⟨.PGRES_TUPLES_OK, "UTF8"⟩ rfl (by decide) rfl rfl
    rfl rfl

/-- Claim C4 as stated fails: built without `HAVE_PQPROTOCOL3`, on a link that
reports protocol version 3, `conn_connect` succeeds and records 2. -/
theorem conn_connect_protocol_not_reported :
    (conn_connect link_up false conn_fresh).1 = 0 ∧
      (conn_connect link_up false conn_fresh).2.self.pgconn = some 1 ∧
      link_up.PQprotocolVersion (conn_connect link_up false conn_fresh).2.trace 1 = 3 ∧
      (conn_connect link_up false conn_fresh).2.self.protocol ≠
        link_up.PQprotocolVersion (conn_connect link_up false conn_fresh).2.trace 1 := by
  decide

/-! ## conn_switch_isolation_level -/

/-- Claim C5: for every connection state and target level,
`conn_switch_isolation_level` issues exactly one abort, on the connection still
at its old level and before the write of the level field, when the current
level is greater than zero and differs from the target; when the current level
is 0 it issues no abort, whatever the target. -/
theorem conn_switch_isolation_level_aborts (X : Extern) (level : Int) (w : World) :
    (0 < w.self.isolation_level ∧ w.self.isolation_level ≠ level →
      (conn_switch_isolation_level X level w).2.trace =
        w.trace ++ [.mutex_lock, .pq_abort (X.pq_abort (w.trace ++ [.mutex_lock]) w.self),
          .set_isolation_level level, .mutex_unlock]) ∧
    (w.self.isolation_level = 0 →
      (conn_switch_isolation_level X level w).2.trace =
        w.trace ++ [.mutex_lock, .set_isolation_level level, .mutex_unlock]) := by
  constructor
  · intro h
    have hc : w.self.isolation_level ≠ level ∧ w.self.isolation_level > 0 := ⟨h.2, h.1⟩
    simp [conn_switch_isolation_level, hc]
  · intro h
    simp [conn_switch_isolation_level, h]

/-- From level 1 to level 2: lock, abort, write, unlock. From level 0: no abort. -/
theorem conn_switch_isolation_level_aborts_witness :
    (conn_switch_isolation_level link_up 2 conn_live).2.trace =
        [.mutex_lock, .pq_abort 0, .set_isolation_level 2, .mutex_unlock] ∧
      (conn_switch_isolation_level link_up 2
          { conn_live with self := { conn_live.self with isolation_level := 0 } }).2.trace =
        [.mutex_lock, .set_isolation_level 2, .mutex_unlock] :=
  ⟨(conn_switch_isolation_level_aborts link_up 2 conn_live).1 (by decide),
    (conn_switch_isolation_level_aborts link_up 2
      { conn_live with self := { conn_live.self with isolation_level := 0 } }).2 rfl⟩

/-- Claim C6: after `conn_switch_isolation_level` the isolation level equals
the target, whatever the abort returned; the status returned is the status of
the abort when one was issued and 0 (success) when none was, so a failure is
always the failure of an issued abort; an abort is issued exactly when the
level differs from the target and is greater than zero. -/
theorem conn_switch_isolation_level_result (X : Extern) (level : Int) (w : World) :
    (conn_switch_isolation_level X level w).2.self.isolation_level = level ∧
      (conn_switch_isolation_level X level w).1 =
        (if w.self.isolation_level ≠ level ∧ w.self.isolation_level > 0
          then X.pq_abort (w.trace ++ [.mutex_lock]) w.self else 0) ∧
      count_aborts (conn_switch_isolation_level X level w).2.trace =
        count_aborts w.trace +
          (if w.self.isolation_level ≠ level ∧ w.self.isolation_level > 0 then 1 else 0) := by
  unfold conn_switch_isolation_level
  simp only [emit_trace, emit_self]
  split <;> simp [count_aborts_append, count_aborts]

/-! ## conn_notice_callback -/

/-- Comparing with a pattern without NUL byte over the length of the pattern
yields 0 exactly when the pattern is a prefix. -/
theorem strncmp_eq_zero_iff (b : List Char) (hb : ∀ c ∈ b, c.toNat ≠ 0) (a : List Char) :
    strncmp a b b.length = 0 ↔ b.isPrefixOf a = true := by
  induction b generalizing a with
  | nil => cases a <;> simp [strncmp]
  | cons c bs ih =>
    have hc : c.toNat ≠ 0 := hb c (List.mem_cons_self _ _)
    have hbs : ∀ c ∈ bs, c.toNat ≠ 0 := fun d hd => hb d (List.mem_cons_of_mem _ hd)
    cases a with
    | nil => 
      simp only [strncmp, List.length_cons, List.isPrefixOf]
      constructor
      · intro h; omega
      · intro h; cases h
    | cons x as =>
      simp only [strncmp, List.length_cons, List.isPrefixOf]
      by_cases hx : x = c
      · subst hx
        simp [ih hbs as]
      · have hne : (x.toNat : Int) - (c.toNat : Int) ≠ 0 := by
          intro h
          apply hx
          have hn : x.toNat = c.toNat := by omega
          rw [← Char.ofNat_toNat x, ← Char.ofNat_toNat c, hn]
        have hcx : ¬ c = x := fun h => hx h.symm
        simp [hx, hne, hcx]

/-- The test of `conn_notice_callback` is the sentinel test of the specification. -/
theorem strncmp_ERROR (message : String) :
    strncmp message.data "ERROR".data 5 = 0 ↔ begins_with_ERROR message = true :=
  strncmp_eq_zero_iff "ERROR".data (by decide) message.data

/-- Claim C7: after any sequence of notices delivered to `conn_notice_callback`,
the notice log is the previous log followed by exactly the messages that do not
begin with `ERROR`, in arrival order; each message beginning with `ERROR` is
handed to `pq_set_critical` instead (one effect per message, in order), and the
critical condition recorded is the last such message, if any. -/
theorem conn_notice_callback_log (messages : List String) (w : World) :
    (deliver_notices messages w).self.notice_list =
        w.self.notice_list ++ messages.filter (fun m => !begins_with_ERROR m) ∧
      (deliver_notices messages w).self.critical =
        (messages.filter begins_with_ERROR).foldl (fun _ m => some m) w.self.critical ∧
      (deliver_notices messages w).trace =
        w.trace ++ messages.map
          (fun m => if begins_with_ERROR m then Event.set_critical m else Event.notice_append m) := by
  induction messages generalizing w with
  | nil => simp [deliver_notices]
  | cons m ms ih =>
    have hstep : deliver_notices (m :: ms) w = deliver_notices ms (conn_notice_callback m w) := rfl
    rw [hstep]
    obtain ⟨h1, h2, h3⟩ := ih (conn_notice_callback m w)
    rw [h1, h2, h3]
    unfold conn_notice_callback
    by_cases hm : begins_with_ERROR m = true
    · have hs := (strncmp_ERROR m).mpr hm
      simp [hs, hm, pq_set_critical]
    · have hs : ¬ strncmp m.data "ERROR".data 5 = 0 := fun h => hm ((strncmp_ERROR m).mp h)
      simp [hs, hm]

/-! ## conn_close -/

/-- The steps of orphaning start with the last item of the list. -/
theorem orphan_events_concat (init : List Nat) (t : Nat) :
    orphan_events (init ++ [t]) =
      [Event.cursors_del init.length t, Event.cursor_orphan t] ++ orphan_events init := by
  simp [orphan_events, List.enum_append, List.enumFrom]

/-- Orphaning releases no link. -/
theorem orphan_events_no_finish (l : List Nat) : finished (orphan_events l) = [] := by
  induction l using List.reverseRecOn with
  | nil => rfl
  | append_singleton init t ih =>
    rw [orphan_events_concat, finished_append, ih]
    rfl

/-- Orphaning issues no abort. -/
theorem orphan_events_no_abort (l : List Nat) : count_aborts (orphan_events l) = 0 := by
  induction l using List.reverseRecOn with
  | nil => rfl
  | append_singleton init t ih =>
    rw [orphan_events_concat, count_aborts_append, ih]
    rfl

/-- One turn of the loop of `conn_close` on the last item of the list. -/
theorem conn_close_loop_concat (init : List Nat) (t : Nat) (w : World)
    (hl : w.self.cursors = init ++ [t]) :
    conn_close_loop (init.length + 1) w =
      conn_close_loop init.length
        { self := { w.self with cursors := init },
          heap := cursor_set_conn_null t (Py_DECREF t (Py_INCREF t w.heap)),
          err := w.err,
          trace := w.trace ++ [.cursors_del init.length t, .cursor_orphan t] } := by
  have hget : w.self.cursors.get? init.length = some t := by
    rw [hl, List.get?_eq_getElem?, List.getElem?_concat_length]
  have herase : w.self.cursors.eraseIdx init.length = init := by
    rw [hl, List.eraseIdx_append_of_length_le (Nat.le_refl _)]
    simp
  rw [conn_close_loop, hget]
  simp only [herase, emit, List.append_assoc, List.singleton_append]

/-- The loop of `conn_close` empties the list, sets no exception and performs
the steps of orphaning, whatever the heap holds. -/
theorem conn_close_loop_frame (l : List Nat) (w : World) (hl : w.self.cursors = l) :
    (conn_close_loop l.length w).self = { w.self with cursors := [] } ∧
      (conn_close_loop l.length w).err = w.err ∧
      (conn_close_loop l.length w).trace = w.trace ++ orphan_events l := by
  induction l using List.reverseRecOn generalizing w with
  | nil =>
    simp only [List.length_nil, conn_close_loop, orphan_events, List.enum_nil, List.reverse_nil,
      List.flatMap_nil, List.append_nil, and_true]
    cases w with
    | mk self heap err trace =>
      cases self
      simp only at hl
      simp [hl]
  | append_singleton init t ih =>
    rw [List.length_append, List.length_singleton, conn_close_loop_concat init t w hl]
    obtain ⟨h1, h2, h3⟩ := ih
      { self := { w.self with cursors := init },
        heap := cursor_set_conn_null t (Py_DECREF t (Py_INCREF t w.heap)),
        err := w.err,
        trace := w.trace ++ [.cursors_del init.length t, .cursor_orphan t] } rfl
    rw [h1, h2, h3, orphan_events_concat]
    simp only [List.append_assoc, and_self]

/-- One turn of the loop on a live cursor object: the reference taken by
`PySequence_GetItem` keeps the object alive across `PySequence_DelItem`, and
only its back-reference changes. -/
theorem orphan_step_heap (t : Nat) (heap : Nat → Option cursorObject)
    (c : cursorObject) (hc : heap t = some c) (hr : 1 ≤ c.ob_refcnt) :
    cursor_set_conn_null t (Py_DECREF t (Py_INCREF t heap)) =
      Function.update heap t (some { c with conn := none }) := by
  have h1 : Py_INCREF t heap =
      Function.update heap t (some { c with ob_refcnt := c.ob_refcnt + 1 }) := by
    unfold Py_INCREF
    rw [hc]
  have h2 : Py_DECREF t (Py_INCREF t heap) = Function.update heap t (some c) := by
    unfold Py_DECREF
    simp only [h1, Function.update_same]
    have : ¬ c.ob_refcnt + 1 ≤ 1 := by omega
    simp only [this, if_false, Function.update_idem, Nat.add_sub_cancel]
  unfold cursor_set_conn_null
  rw [h2]
  simp only [Function.update_same, Function.update_idem]

/-- On live cursor objects the loop of `conn_close` clears the back-reference
of each listed object and changes nothing else in the heap. -/
theorem conn_close_loop_heap (l : List Nat) (w : World) (hl : w.self.cursors = l)
    (hlive : ∀ t ∈ l, ∃ c, w.heap t = some c ∧ 1 ≤ c.ob_refcnt) :
    (conn_close_loop l.length w).heap = orphan_all l w.heap := by
  induction l using List.reverseRecOn generalizing w with
  | nil =>
    funext a
    simp [conn_close_loop, orphan_all]
  | append_singleton init t ih =>
    obtain ⟨c, hc, hr⟩ := hlive t (by simp)
    rw [List.length_append, List.length_singleton, conn_close_loop_concat init t w hl]
    have hheap := orphan_step_heap t w.heap c hc hr
    rw [ih _ rfl]
    · simp only [hheap]
      funext a
      unfold orphan_all
      by_cases hat : a = t
      · subst hat
        by_cases hin : a ∈ init <;> simp [hin, hc]
      · by_cases hin : a ∈ init <;> simp [hin, hat, Function.update_noteq hat]
    · intro t' ht'
      simp only [hheap]
      by_cases htt : t' = t
      · subst htt
        exact ⟨{ c with conn := none }, by simp, hr⟩
      · obtain ⟨c', hc', hr'⟩ := hlive t' (by simp [ht'])
        exact ⟨c', by rw [Function.update_noteq htt]; exact hc', hr'⟩

/-- The heap after the loop of `conn_close` depends on the heap and the list
of cursors only. -/
theorem conn_close_loop_heap_congr (n : Nat) (w w' : World) (hh : w.heap = w'.heap)
    (hc : w.self.cursors = w'.self.cursors) :
    (conn_close_loop n w).heap = (conn_close_loop n w').heap := by
  induction n generalizing w w' with
  | zero => exact hh
  | succ i ih =>
    rw [conn_close_loop, conn_close_loop, hc]
    cases hget : w'.self.cursors.get? i with
    | none => exact hh
    | some t =>
      simp only []
      apply ih
      · simp only [emit_heap, hh]
      · simp only [emit_self, hc]

/-- `conn_close` on a connection with a link. -/
theorem conn_close_live (X : Extern) (w : World) (p : Nat) (hp : w.self.pgconn = some p) :
    (conn_close X w).self = { w.self with closed := 1, cursors := [], pgconn := none } ∧
      (conn_close X w).err = w.err ∧
      (conn_close X w).trace =
        w.trace ++ [.mutex_lock, .set_closed 1,
          .pq_abort (X.pq_abort (w.trace ++ [.mutex_lock, .set_closed 1])
            { w.self with closed := 1 }),
          .mutex_unlock, .mutex_lock] ++ orphan_events w.self.cursors ++
          [.mutex_unlock, .PQfinish p, .set_pgconn none] ∧
      (conn_close X w).heap = (conn_close_loop w.self.cursors.length w).heap := by
  have hF := conn_close_loop_frame w.self.cursors
    (emit .mutex_lock (emit .mutex_unlock (emit (.pq_abort
      (X.pq_abort (w.trace ++ [.mutex_lock, .set_closed 1]) { w.self with closed := 1 }))
      (emit (.set_closed 1) { emit .mutex_lock w with self := { w.self with closed := 1 } }))))
    rfl
  have hH := conn_close_loop_heap_congr w.self.cursors.length
    (emit .mutex_lock (emit .mutex_unlock (emit (.pq_abort
      (X.pq_abort (w.trace ++ [.mutex_lock, .set_closed 1]) { w.self with closed := 1 }))
      (emit (.set_closed 1) { emit .mutex_lock w with self := { w.self with closed := 1 } }))))
    w rfl rfl
  obtain ⟨h1, h2, h3⟩ := hF
  unfold conn_close
  simp only [emit_self, emit_trace, emit_err, emit_heap, hp, Option.isSome_some, if_true,
    List.append_assoc, List.singleton_append, List.cons_append, List.nil_append, PQfinish]
    at h1 h2 h3 hH ⊢
  simp only [h1, h2, h3, emit_self, emit_trace, emit_err, emit_heap, List.append_assoc,
    List.singleton_append, List.cons_append, List.nil_append, true_and]
  exact hH

/-- `conn_close` on a connection without a link. -/
theorem conn_close_dead (X : Extern) (w : World) (hp : w.self.pgconn = none) :
    (conn_close X w).self = { w.self with closed := 1, cursors := [], pgconn := none } ∧
      (conn_close X w).err = w.err ∧
      (conn_close X w).trace =
        w.trace ++ [.mutex_lock, .set_closed 1, .mutex_unlock, .mutex_lock] ++
          orphan_events w.self.cursors ++ [.mutex_unlock] ∧
      (conn_close X w).heap = (conn_close_loop w.self.cursors.length w).heap := by
  have hF := conn_close_loop_frame w.self.cursors
    (emit .mutex_lock (emit .mutex_unlock
      (emit (.set_closed 1) { emit .mutex_lock w with self := { w.self with closed := 1 } })))
    rfl
  have hH := conn_close_loop_heap_congr w.self.cursors.length
    (emit .mutex_lock (emit .mutex_unlock
      (emit (.set_closed 1) { emit .mutex_lock w with self := { w.self with closed := 1 } })))
    w rfl rfl
  obtain ⟨h1, h2, h3⟩ := hF
  unfold conn_close
  simp only [emit_self, emit_trace, emit_err, emit_heap, hp, Option.isSome_none,
    Bool.false_eq_true, if_false,
    List.append_assoc, List.singleton_append, List.cons_append, List.nil_append, PQfinish]
    at h1 h2 h3 hH ⊢
  simp only [h1, h2, h3, emit_self, emit_trace, emit_err, emit_heap, List.append_assoc,
    List.singleton_append, List.cons_append, List.nil_append, true_and]
  exact hH

/-- The state in which `conn_close` leaves the connection, with or without a link. -/
theorem conn_close_state (X : Extern) (w : World) :
    (conn_close X w).self = { w.self with closed := 1, cursors := [], pgconn := none } ∧
      (conn_close X w).err = w.err ∧
      (conn_close X w).heap = (conn_close_loop w.self.cursors.length w).heap := by
  cases hp : w.self.pgconn with
  | none =>
    obtain ⟨h1, h2, _, h4⟩ := conn_close_dead X w hp
    exact ⟨h1, h2, h4⟩
  | some p =>
    obtain ⟨h1, h2, _, h4⟩ := conn_close_live X w p hp
    exact ⟨h1, h2, h4⟩

/-- Orphaning no cursor leaves the heap as it is. -/
theorem orphan_all_nil (heap : Nat → Option cursorObject) : orphan_all [] heap = heap := by
  funext a
  simp [orphan_all]

/-- Claim C8: for every connection whose dependent cursors are live objects
(allocated, with a reference count of at least 1, as the list itself holds a
reference), after `conn_close` the closed flag is set, the link handle is null,
the dependents collection is empty, and every cursor that was in it still
exists, unchanged but for its connection back-reference, which is null. A
second `conn_close` changes neither the connection object nor the heap nor the
pending exception, and performs only lock operations and the write of the
closed flag: no abort and no link release. -/
theorem conn_close_orphans_and_idempotent (X X' : Extern) (w : World)
    (hlive : ∀ t ∈ w.self.cursors, ∃ c, w.heap t = some c ∧ 1 ≤ c.ob_refcnt) :
    (conn_close X w).self.closed = 1 ∧
      (conn_close X w).self.pgconn = none ∧
      (conn_close X w).self.cursors = [] ∧
      (∀ t ∈ w.self.cursors, ∃ c, w.heap t = some c ∧
        (conn_close X w).heap t = some { c with conn := none }) ∧
      (conn_close X' (conn_close X w)).self = (conn_close X w).self ∧
      (conn_close X' (conn_close X w)).heap = (conn_close X w).heap ∧
      (conn_close X' (conn_close X w)).err = (conn_close X w).err ∧
      (conn_close X' (conn_close X w)).trace =
        (conn_close X w).trace ++
          [.mutex_lock, .set_closed 1, .mutex_unlock, .mutex_lock, .mutex_unlock] := by
  obtain ⟨h1, _, h3⟩ := conn_close_state X w
  have hheap : (conn_close X w).heap = orphan_all w.self.cursors w.heap := by
    rw [h3, conn_close_loop_heap w.self.cursors w rfl hlive]
  have hp : (conn_close X w).self.pgconn = none := by rw [h1]
  have hcur : (conn_close X w).self.cursors = [] := by rw [h1]
  have hcl : (conn_close X w).self.closed = 1 := by rw [h1]
  obtain ⟨g1, g2, g3, g4⟩ := conn_close_dead X' (conn_close X w) hp
  refine ⟨hcl, hp, hcur, ?_, ?_, ?_, g2, ?_⟩
  · intro t ht
    obtain ⟨c, hc, _⟩ := hlive t ht
    refine ⟨c, hc, ?_⟩
    rw [hheap]
    simp [orphan_all, ht, hc]
  · rw [g1, h1]
  · rw [g4, hcur]
    rfl
  · rw [g3, hcur]
    simp [orphan_events]

/-- Closing the sample connection with its two live cursors, twice. -/
theorem conn_close_orphans_and_idempotent_witness :
    (conn_close link_up conn_live).self.closed = 1 ∧
      (conn_close link_up conn_live).self.pgconn = none ∧
      (conn_close link_up conn_live).self.cursors = [] ∧
      (∀ t ∈ conn_live.self.cursors, ∃ c, conn_live.heap t = some c ∧
        (conn_close link_up conn_live).heap t = some { c with conn := none }) ∧
      (conn_close link_up (conn_close link_up conn_live)).self =
        (conn_close link_up conn_live).self ∧
      (conn_close link_up (conn_close link_up conn_live)).heap =
        (conn_close link_up conn_live).heap ∧
      (conn_close link_up (conn_close link_up conn_live)).err =
        (conn_close link_up conn_live).err ∧
      (conn_close link_up (conn_close link_up conn_live)).trace =
        (conn_close link_up conn_live).trace ++
          [.mutex_lock, .set_closed 1, .mutex_unlock, .mutex_lock, .mutex_unlock] :=
  conn_close_orphans_and_idempotent link_up link_up conn_live (by
    intro t ht
    have h : t = 10 ∨ t = 11 := by simpa [conn_live] using ht
    exact ⟨{ ob_refcnt := 1, conn := some 0 }, by simp [conn_live, h], by decide⟩)

/-- Claim C9: on a connection with a live link, the effects of `conn_close` are,
in this order: the closed flag is set (under the lock), one abort is issued on
the connection already marked closed, every dependent cursor is orphaned from
the last to the first, and after the last orphaning the link is released, once,
and the handle nulled. In the state reached the closed flag is set, the
dependents collection is empty, the link handle is null and, the listed
cursors being live objects, the heap is the initial one with the
back-reference of every listed cursor cleared. The status of the abort is
ignored: connection object, heap and pending exception after the close are the
same whatever the abort (or any other answer of the link) was. -/
theorem conn_close_order (X X' : Extern) (w : World) (pgconn : Nat)
    (hlink : w.self.pgconn = some pgconn) :
    (conn_close X w).trace =
        w.trace ++ [.mutex_lock, .set_closed 1,
          .pq_abort (X.pq_abort (w.trace ++ [.mutex_lock, .set_closed 1])
            { w.self with closed := 1 }),
          .mutex_unlock, .mutex_lock] ++ orphan_events w.self.cursors ++
          [.mutex_unlock, .PQfinish pgconn, .set_pgconn none] ∧
      count_aborts (conn_close X w).trace = count_aborts w.trace + 1 ∧
      finished (conn_close X w).trace = finished w.trace ++ [pgconn] ∧
      (conn_close X w).self = { w.self with closed := 1, cursors := [], pgconn := none } ∧
      ((∀ t ∈ w.self.cursors, ∃ c, w.heap t = some c ∧ 1 ≤ c.ob_refcnt) →
        (conn_close X w).heap = orphan_all w.self.cursors w.heap ∧
        ∀ t ∈ w.self.cursors, ∃ c, w.heap t = some c ∧
          (conn_close X w).heap t = some { c with conn := none }) ∧
      (conn_close X w).err = w.err ∧
      (conn_close X w).self = (conn_close X' w).self ∧
      (conn_close X w).heap = (conn_close X' w).heap ∧
      (conn_close X w).err = (conn_close X' w).err := by
  obtain ⟨h1, h2, h3, h4⟩ := conn_close_live X w pgconn hlink
  obtain ⟨g1, g2, _, g4⟩ := conn_close_live X' w pgconn hlink
  refine ⟨h3, ?_, ?_, h1, ?_, h2, ?_, ?_, ?_⟩
  · rw [h3]
    simp only [count_aborts_append, orphan_events_no_abort]
    simp [count_aborts]
  · rw [h3]
    simp only [finished_append, orphan_events_no_finish]
    simp [finished]
  · intro hlive
    have hheap : (conn_close X w).heap = orphan_all w.self.cursors w.heap := by
      rw [h4, conn_close_loop_heap w.self.cursors w rfl hlive]
    refine ⟨hheap, ?_⟩
    intro t ht
    obtain ⟨c, hc, _⟩ := hlive t ht
    refine ⟨c, hc, ?_⟩
    rw [hheap]
    simp [orphan_all, ht, hc]
  · rw [h1, g1]
  · rw [h4, g4]
  · rw [h2, g2]

/-- Closing the sample connection, with its link and its two live cursors, on a
link whose abort fails: the effects in order, both cursors orphaned and still
allocated, and the same state as on the link whose abort succeeds. -/
theorem conn_close_order_witness :
    link_abort_failing.pq_abort [.mutex_lock, .set_closed 1]
        { conn_live.self with closed := 1 } = -1 ∧
      (conn_close link_abort_failing conn_live).trace =
        [.mutex_lock, .set_closed 1, .pq_abort (-1), .mutex_unlock, .mutex_lock,
          .cursors_del 1 11, .cursor_orphan 11, .cursors_del 0 10, .cursor_orphan 10,
          .mutex_unlock, .PQfinish 1, .set_pgconn none] ∧
      count_aborts (conn_close link_abort_failing conn_live).trace = 1 ∧
      finished (conn_close link_abort_failing conn_live).trace = [1] ∧
      (conn_close link_abort_failing conn_live).self =
        { conn_live.self with closed := 1, cursors := [], pgconn := none } ∧
      (conn_close link_abort_failing conn_live).heap 10 =
        some { ob_refcnt := 1, conn := none } ∧
      (conn_close link_abort_failing conn_live).heap 11 =
        some { ob_refcnt := 1, conn := none } ∧
      (conn_close link_abort_failing conn_live).err = none ∧
      (conn_close link_abort_failing conn_live).self = (conn_close link_up conn_live).self ∧
      (conn_close link_abort_failing conn_live).heap = (conn_close link_up conn_live).heap ∧
      (conn_close link_abort_failing conn_live).err = (conn_close link_up conn_live).err := by
  have h := conn_close_order link_abort_failing link_up conn_live 1 rfl
  have hlive : ∀ t ∈ conn_live.self.cursors,
      ∃ c, conn_live.heap t = some c ∧ 1 ≤ c.ob_refcnt := by
    intro t ht
    have ht' : t = 10 ∨ t = 11 := by simpa [conn_live] using ht
    exact ⟨{ ob_refcnt := 1, conn := some 0 }, by simp [conn_live, ht'], by decide⟩
  have hheap := (h.2.2.2.2.1 hlive).1
  refine ⟨rfl, h.1, h.2.1, h.2.2.1, h.2.2.2.1, ?_, ?_, h.2.2.2.2.2.1, h.2.2.2.2.2.2.1,
    h.2.2.2.2.2.2.2.1, h.2.2.2.2.2.2.2.2⟩
  · rw [hheap]
    rfl
  · rw [hheap]
    rfl

/-! ## adapter_pboolean.c -/

/-- Claim C10: for every wrapped value and every truth test, `pboolean_str`
returns `'t'` when the truth test of the wrapped value is true (any nonzero
result of `PyObject_IsTrue`) and `'f'` when it is false (result 0); it never
returns anything else; `getquoted()` returns what `pboolean_str` returns; and
objects wrapping the same value render to the same text. -/
theorem pboolean_str_two_valued {PyObject : Type} (PyObject_IsTrue : PyObject → Int)
    (self : pbooleanObject PyObject) :
    (PyObject_IsTrue self.wrapped ≠ 0 → pboolean_str PyObject_IsTrue self = "'t'") ∧
      (PyObject_IsTrue self.wrapped = 0 → pboolean_str PyObject_IsTrue self = "'f'") ∧
      (pboolean_str PyObject_IsTrue self = "'t'" ∨ pboolean_str PyObject_IsTrue self = "'f'") ∧
      pboolean_getquoted PyObject_IsTrue self [] = some (pboolean_str PyObject_IsTrue self) ∧
      (∀ other : pbooleanObject PyObject, other.wrapped = self.wrapped →
        pboolean_str PyObject_IsTrue other = pboolean_str PyObject_IsTrue self) := by
  refine ⟨?_, ?_, ?_, rfl, ?_⟩
  · intro h
    simp [pboolean_str, h]
  · intro h
    simp [pboolean_str, h]
  · unfold pboolean_str
    split
    · exact Or.inl rfl
    · exact Or.inr rfl
  · intro other h
    unfold pboolean_str
    rw [h]

/-- With integers as wrapped values and nonzero as truth: 5 renders as `'t'`,
0 as `'f'`. -/
theorem pboolean_str_two_valued_witness :
    pboolean_str (fun n : Int => if n = 0 then 0 else 1) ⟨5⟩ = "'t'" ∧
      pboolean_str (fun n : Int => if n = 0 then 0 else 1) ⟨0⟩ = "'f'" :=
  ⟨(pboolean_str_two_valued (fun n : Int => if n = 0 then 0 else 1) ⟨5⟩).1 (by decide),
    (pboolean_str_two_valued (fun n : Int => if n = 0 then 0 else 1) ⟨0⟩).2.1 (by decide)⟩

/-! ## The lock -/

/-- The effects of an operation that extended the trace by `tr`. -/
theorem effects_since_append (w w' : World) (tr : List Event) (h : w'.trace = w.trace ++ tr) :
    effects_since w w' = tr := by
  unfold effects_since
  rw [h, List.drop_left]

/-- The steps of orphaning neither take nor release the lock, and are allowed
while it is held. -/
theorem lock_held_orphan_events (l : List Nat) (rest : List Event) :
    lock_held_throughout true (orphan_events l ++ rest) = lock_held_throughout true rest := by
  induction l using List.reverseRecOn with
  | nil => rfl
  | append_singleton init t ih =>
    rw [orphan_events_concat]
    simp only [List.cons_append, List.nil_append, lock_held_throughout, needs_lock,
      Bool.not_true, Bool.false_or, Bool.or_true, Bool.true_and]
    exact ih

/-- What the code keeps under the lock: `conn_commit` and `conn_rollback` acquire
the lock, invoke the commit or abort primitive once, release the lock and return
the status of the primitive; in `conn_commit`, `conn_rollback`,
`conn_switch_isolation_level` and `conn_set_client_encoding` every link
operation and every write to a field of the connection lies between an
acquisition of the lock and the matching release, and the lock is free on
return. The effects of `conn_close` start with a sequence of that kind, ending
with a release of the lock; what follows it, on a connection with a link, is the
release of the link and the write of the null link handle. -/
theorem lock_discipline (X : Extern) (level : Int) (enc : String) (w : World) :
    ((conn_commit X w).2.trace =
        w.trace ++ [.mutex_lock, .pq_commit (X.pq_commit (w.trace ++ [.mutex_lock]) w.self),
          .mutex_unlock] ∧
      (conn_commit X w).1 = X.pq_commit (w.trace ++ [.mutex_lock]) w.self) ∧
    ((conn_rollback X w).2.trace =
        w.trace ++ [.mutex_lock, .pq_abort (X.pq_abort (w.trace ++ [.mutex_lock]) w.self),
          .mutex_unlock] ∧
      (conn_rollback X w).1 = X.pq_abort (w.trace ++ [.mutex_lock]) w.self) ∧
    lock_held_throughout false (effects_since w (conn_commit X w).2) = true ∧
    lock_held_throughout false (effects_since w (conn_rollback X w).2) = true ∧
    lock_held_throughout false
      (effects_since w (conn_switch_isolation_level X level w).2) = true ∧
    lock_held_throughout false
      (effects_since w (conn_set_client_encoding X enc w).2) = true ∧
    (∃ body : List Event,
      effects_since w (conn_close X w) =
        body ++ (match w.self.pgconn with
          | some pgconn => [Event.PQfinish pgconn, Event.set_pgconn none]
          | none => []) ∧
      lock_held_throughout false body = true ∧
      body.getLast? = some Event.mutex_unlock) := by
  refine ⟨⟨?_, rfl⟩, ⟨?_, rfl⟩, ?_, ?_, ?_, ?_, ?_⟩
  · simp [conn_commit]
  · simp [conn_rollback]
  · rw [effects_since_append w _ [.mutex_lock,
      .pq_commit (X.pq_commit (w.trace ++ [.mutex_lock]) w.self), .mutex_unlock]
      (by simp [conn_commit])]
    rfl
  · rw [effects_since_append w _ [.mutex_lock,
      .pq_abort (X.pq_abort (w.trace ++ [.mutex_lock]) w.self), .mutex_unlock]
      (by simp [conn_rollback])]
    rfl
  · by_cases hc : w.self.isolation_level ≠ level ∧ w.self.isolation_level > 0
    · rw [effects_since_append w _ [.mutex_lock,
        .pq_abort (X.pq_abort (w.trace ++ [.mutex_lock]) w.self),
        .set_isolation_level level, .mutex_unlock]
        (by simp [conn_switch_isolation_level, hc])]
      rfl
    · rw [effects_since_append w _ [.mutex_lock, .set_isolation_level level, .mutex_unlock]
        (by simp [conn_switch_isolation_level, hc])]
      rfl
  · by_cases habort : X.pq_abort (w.trace ++ [.mutex_lock]) w.self = 0
    · have htr := conn_set_client_encoding_trace X enc w habort
      by_cases hf : pgres_failed (X.PQexec (w.trace ++ [.mutex_lock, .pq_abort 0]) w.self.pgconn
          (client_encoding_query enc)) .PGRES_COMMAND_OK = true
      · rw [if_pos hf, List.append_assoc, List.append_assoc] at htr
        rw [effects_since_append w _ _ htr]
        rfl
      · rw [if_neg hf, List.append_assoc, List.append_assoc] at htr
        rw [effects_since_append w _ _ htr]
        rfl
    · rw [effects_since_append w _ [.mutex_lock,
        .pq_abort (X.pq_abort (w.trace ++ [.mutex_lock]) w.self), .mutex_unlock]
        (by
          unfold conn_set_client_encoding
          simp only [emit_trace, emit_self, habort, if_false, List.append_assoc,
            List.singleton_append, List.cons_append, List.nil_append])]
      rfl
  · cases hp : w.self.pgconn with
    | none =>
      obtain ⟨_, _, h3, _⟩ := conn_close_dead X w hp
      refine ⟨[.mutex_lock, .set_closed 1, .mutex_unlock, .mutex_lock] ++
        orphan_events w.self.cursors ++ [.mutex_unlock], ?_, ?_, ?_⟩
      · rw [List.append_nil]
        apply effects_since_append
        rw [h3, List.append_assoc, List.append_assoc, List.append_assoc]
      · show lock_held_throughout true (orphan_events w.self.cursors ++ [Event.mutex_unlock]) = true
        rw [lock_held_orphan_events]
        rfl
      · exact List.getLast?_concat _
    | some p =>
      obtain ⟨_, _, h3, _⟩ := conn_close_live X w p hp
      refine ⟨[.mutex_lock, .set_closed 1,
        .pq_abort (X.pq_abort (w.trace ++ [.mutex_lock, .set_closed 1])
          { w.self with closed := 1 }), .mutex_unlock, .mutex_lock] ++
        orphan_events w.self.cursors ++ [.mutex_unlock], ?_, ?_, ?_⟩
      · apply effects_since_append
        rw [h3]
        simp only [List.append_assoc, List.cons_append, List.nil_append]
      · show lock_held_throughout true (orphan_events w.self.cursors ++ [Event.mutex_unlock]) = true
        rw [lock_held_orphan_events]
        rfl
      · exact List.getLast?_concat _

/-- Once a sequence of effects has been read through with the lock free at its
end, what follows is read from the free lock. -/
theorem lock_held_throughout_append (held : Bool) (a b : List Event)
    (ha : lock_held_throughout held a = true) :
    lock_held_throughout held (a ++ b) = lock_held_throughout false b := by
  induction a generalizing held with
  | nil =>
    cases held
    · rfl
    · simp [lock_held_throughout] at ha
  | cons e tr ih =>
    cases e <;> cases held <;>
      simp only [lock_held_throughout, needs_lock, List.cons_append, Bool.not_true,
        Bool.not_false, Bool.false_or, Bool.or_true, Bool.or_false, Bool.true_and,
        Bool.false_and, Bool.and_eq_true] at ha ⊢ <;>
      first
        | exact ih _ ha
        | exact ih _ ha.2
        | exact absurd ha (by simp)

/-- On every connection with a link, whatever the link answers, `conn_close`
releases the link and nulls the link handle after its last release of the lock:
its effects do not all lie under the lock. -/
theorem conn_close_link_release_unlocked (X : Extern) (w : World) (pgconn : Nat)
    (hlink : w.self.pgconn = some pgconn) :
    lock_held_throughout false (effects_since w (conn_close X w)) = false := by
  obtain ⟨_, _, h3, _⟩ := conn_close_live X w pgconn hlink
  have hbody : lock_held_throughout false
      ([.mutex_lock, .set_closed 1,
        .pq_abort (X.pq_abort (w.trace ++ [.mutex_lock, .set_closed 1])
          { w.self with closed := 1 }), .mutex_unlock, .mutex_lock] ++
        orphan_events w.self.cursors ++ [.mutex_unlock]) = true := by
    show lock_held_throughout true (orphan_events w.self.cursors ++ [Event.mutex_unlock]) = true
    rw [lock_held_orphan_events]
    rfl
  have heff : effects_since w (conn_close X w) =
      ([.mutex_lock, .set_closed 1,
        .pq_abort (X.pq_abort (w.trace ++ [.mutex_lock, .set_closed 1])
          { w.self with closed := 1 }), .mutex_unlock, .mutex_lock] ++
        orphan_events w.self.cursors ++ [.mutex_unlock]) ++
        [.PQfinish pgconn, .set_pgconn none] := by
    apply effects_since_append
    rw [h3]
    simp only [List.append_assoc, List.cons_append, List.nil_append]
  rw [heff, lock_held_throughout_append false _ _ hbody]
  rfl

/-- Claim C11 fails on the code for `conn_close`: on the sample connection with a
link, `PQfinish` and the write of the link handle come after the last release
of the lock, so the link release and the mutation of the link handle are not
between an acquisition of the lock and the matching release. -/
theorem conn_close_releases_link_unlocked :
    conn_live.self.pgconn = some 1 ∧
      effects_since conn_live (conn_close link_up conn_live) =
        [.mutex_lock, .set_closed 1, .pq_abort 0, .mutex_unlock, .mutex_lock,
          .cursors_del 1 11, .cursor_orphan 11, .cursors_del 0 10, .cursor_orphan 10,
          .mutex_unlock, .PQfinish 1, .set_pgconn none] ∧
      lock_held_throughout false (effects_since conn_live (conn_close link_up conn_live)) =
        false := by
  decide

end Psycopg
